import Mathlib

/-!
Verification of the TuneLite orchestration layer
(`src/tunelite/trainer/colossalai_trainer.py` and
`src/examples/train_colossalai.py`).

The repository is glue code around an external distributed-training
framework.  We shallowly embed the control flow that is original to the
repository: the training/evaluation cadence of `ColossalaiTrainer.train`,
the token-by-token loop of `ColossalaiTrainer.generate`, the broadcast of
the predicted tokens across pipeline ranks, and the exception handler of
the example script.  External calls (the forward pass of the engine,
`torch.argmax` on the last stage) are abstracted as oracle parameters; the
tensors involved are modelled as lists of integers.
-/

namespace TuneLite

/-- The hyperparameter record `TrainerArgs` from
`src/tunelite/trainer/colossalai_trainer.py`.  Only the integer-valued
fields that drive control flow are modelled; the floating-point sampling
parameters (`learning_rate`, `eval_top_p`, `eval_temperature`) never
influence the loops verified here. -/
structure TrainerArgs where
  epochs : Int := 10
  eval_per_steps : Int := 10
  eval_per_epoches : Int := 1
  eval_max_length : Int := 128
  eval_stop_tokens : List Int := [2]
deriving Repr, DecidableEq

/-- Observable actions of `ColossalaiTrainer.train`: a completed training
step (`engine.step`) at a given `(epoch, step)` pair, or a call to
`self.eval(epoch, step)`. -/
inductive Event where
  | trainStep : Nat → Nat → Event
  | evalCall : Nat → Nat → Event
deriving Repr, DecidableEq

/-- The `eval_per_steps` cadence check that follows each training step in
`train_loop`:
`if N == 0: continue; elif N == -1: eval(epoch, step);
 elif N > 0 and step % N == 0: eval(epoch, step)`. -/
def stepEval (N : Int) (epoch step : Nat) : List Event :=
  if N = 0 then []
  else if N = -1 then [Event.evalCall epoch step]
  else if N > 0 ∧ (step : Int) % N = 0 then [Event.evalCall epoch step]
  else []

/-- The inner `train_loop(epoch)` of `ColossalaiTrainer.train`: it
enumerates the dataloader with `step` starting at 1, performs one engine
step per batch, and then runs the `eval_per_steps` cadence check.
`numSteps` is the length of the train dataloader. -/
def train_loop (args : TrainerArgs) (epoch : Nat) (numSteps : Nat) : List Event :=
  (List.range numSteps).flatMap fun i =>
    Event.trainStep epoch (i + 1) :: stepEval args.eval_per_steps epoch (i + 1)

/-- The `eval_per_epoches` cadence check run after `train_loop` returns:
`if M == 0: continue; elif M == -1: eval(epochArg, 0);
 elif M > 0 and checkVal % M == 0: eval(epochArg, 0)`.
In the `epochs == -1` branch both `epochArg` and `checkVal` are the
already-incremented counter; in the `epochs > 0` branch `epochArg` is the
0-based loop variable and `checkVal` is `epoch + 1`. -/
def epochEval (M : Int) (epochArg checkVal : Nat) : List Event :=
  if M = 0 then []
  else if M = -1 then [Event.evalCall epochArg 0]
  else if M > 0 ∧ (checkVal : Int) % M = 0 then [Event.evalCall epochArg 0]
  else []

/-- One pass of the `while True` body in the `epochs == -1` branch of
`train`: with the counter equal to `k` at entry, it runs `train_loop(k)`,
increments the counter to `k + 1`, and runs the epoch cadence check on the
new value. -/
def foreverBody (args : TrainerArgs) (numSteps k : Nat) : List Event :=
  train_loop args k numSteps ++ epochEval args.eval_per_epoches (k + 1) (k + 1)

/-- The `epochs > 0` branch of `train`: `for epoch in range(epochs)`, each
iteration running `train_loop(epoch)` followed by the epoch cadence check
on `epoch + 1` (eval is called with the 0-based `epoch`). -/
def trainFinite (args : TrainerArgs) (numSteps : Nat) : List Event :=
  (List.range args.epochs.toNat).flatMap fun e =>
    train_loop args e numSteps ++ epochEval args.eval_per_epoches e (e + 1)

/-- `ColossalaiTrainer.train`: returns the event trace, or `none` for the
non-terminating `epochs == -1` branch (whose per-pass behaviour is
`foreverBody`).  When `epochs == 0` the method returns immediately; when
`epochs < -1` no branch of the `if/elif` chain fires and the method falls
through, also producing no events. -/
def train (args : TrainerArgs) (numSteps : Nat) : Option (List Event) :=
  if args.epochs = 0 then some []
  else if args.epochs = -1 then none
  else if args.epochs > 0 then some (trainFinite args numSteps)
  else some []

/-! ## `ColossalaiTrainer.generate`

`batch[0]["input_ids"]` is a 2-D tensor, modelled as a list of rows (one
per batch element).  One iteration of the loop with index `i` does, in
order: run the engine forward on the current `input_ids` (abstracted as
`oracle`, which yields the broadcast `next_tokens` column, one entry per
row); set `current_pos = i + 1`; append zero columns while
`current_pos >= input_ids.shape[1]`; overwrite column `current_pos` with
`torch.where(col == 0, next_tokens, col)`; finally raise `StopIteration`
(caught as `break`) when any entry of `next_tokens` is in `stop_tokens`. -/

/-- The `while current_pos >= shape[1]: cat zeros` padding applied to one
row: append zeros until the row has a column at index `pos`. -/
def padRow (row : List Int) (pos : Nat) : List Int :=
  row ++ List.replicate (pos + 1 - row.length) 0

/-- The `torch.where` write into one row:
`input_ids[:, pos] = where(input_ids[:, pos] == 0, next_token, input_ids[:, pos])`. -/
def writeRow (row : List Int) (pos : Nat) (t : Int) : List Int :=
  row.set pos (if row.getD pos 0 = 0 then t else row.getD pos 0)

/-- One iteration body of the `generate` loop at loop index `i` (writing
column `current_pos = i + 1`): pad every row so the column exists, then
conditionally write the predicted tokens there. -/
def genStep (oracle : List (List Int) → List Int) (rows : List (List Int))
    (i : Nat) : List (List Int) :=
  List.zipWith (fun row t => writeRow (padRow row (i + 1)) (i + 1) t) rows (oracle rows)

/-- The `StopIteration` condition of one iteration: some entry of the
flattened `next_tokens` is in `stop_tokens`. -/
def stopHit (oracle : List (List Int) → List Int) (stop : List Int)
    (rows : List (List Int)) : Bool :=
  (oracle rows).any fun t => stop.contains t

/-- The `for current_pos in range(max_length)` loop of `generate`, with
`fuel` remaining iterations and `done` the loop index reached so far.
Returns the final `input_ids`, the number of iterations executed, and
whether the loop exited through the `StopIteration` break. -/
def genLoopAux (oracle : List (List Int) → List Int) (stop : List Int) :
    Nat → Nat → List (List Int) → List (List Int) × Nat × Bool
  | 0, done, rows => (rows, done, false)
  | fuel + 1, done, rows =>
    let rows' := genStep oracle rows done
    if stopHit oracle stop rows then (rows', done + 1, true)
    else genLoopAux oracle stop fuel (done + 1) rows'

/-- `ColossalaiTrainer.generate(batch, max_length, stop_tokens)`:
`range(max_length)` yields `max_length.toNat` iterations (none when
`max_length <= 0`). -/
def generate (oracle : List (List Int) → List Int) (rows : List (List Int))
    (max_length : Int) (stop : List Int) : List (List Int) × Nat × Bool :=
  genLoopAux oracle stop max_length.toNat 0 rows

/-- The `input_ids` state after `k` iterations of the `generate` loop
(ignoring the break, whose state update is identical to a normal
iteration's: the write precedes the raise). -/
def iterState (oracle : List (List Int) → List Int) (rows : List (List Int)) :
    Nat → List (List Int)
  | 0 => rows
  | k + 1 => genStep oracle (iterState oracle rows k) k

/-- Whether iteration `k` of the `generate` loop run from `rows` produces a
stop token. -/
def stopHitAt (oracle : List (List Int) → List Int) (stop : List Int)
    (rows : List (List Int)) (k : Nat) : Bool :=
  stopHit oracle stop (iterState oracle rows k)

/-! ## The broadcast of `next_tokens` across pipeline ranks

`next_tokens` is initialised to zeros on every rank; the last pipeline
stage overwrites it with the argmax of its output; then
`torch.distributed.broadcast(next_tokens, src=gpc.get_world_size(ParallelMode.PIPELINE) - 1)`
replaces every rank's copy with the source rank's.  Ranks are the process
group used by the broadcast, which in this configuration coincides with
the pipeline group. -/

/-- Per-rank `next_tokens` right before the broadcast: the last pipeline
stage (rank `ppWorldSize - 1`) holds the argmax column, every other rank
holds the zero initialisation. -/
def preBroadcastTokens (ppWorldSize batchSize : Nat) (argmaxTokens : List Int)
    (r : Nat) : List Int :=
  if r = ppWorldSize - 1 then argmaxTokens else List.replicate batchSize 0

/-- The `src` argument the code passes to `torch.distributed.broadcast`:
`gpc.get_world_size(ParallelMode.PIPELINE) - 1`. -/
def broadcastSrc (ppWorldSize : Nat) : Nat := ppWorldSize - 1

/-- `torch.distributed.broadcast`: after the call every rank holds the
source rank's value. -/
def broadcastTokens (vals : Nat → List Int) (src : Nat) (_r : Nat) : List Int :=
  vals src

/-! ## The top-level exception handler of `src/examples/train_colossalai.py`

`except: if os.environ.get("RANK") == "0" or
os.environ.get("RANK") == f"{int(os.environ.get('WORLD_SIZE'))-1}":
console.print_exception(...)`. -/

/-- Whether the catch-all around `main()` prints a stack trace, as a
function of the `RANK` environment string and the parsed integer value of
`WORLD_SIZE`. -/
def printsStackTrace (rank : String) (worldSize : Int) : Bool :=
  rank == "0" || rank == toString (worldSize - 1)

/-! ## Theorems -/

/-- C10: if `trainer_args.epochs = 0` then `train()` returns immediately:
its event trace is empty, so no training step is executed, the engine is
stepped zero times, and `eval` is never invoked. -/
theorem train_epochs_zero_returns_immediately (args : TrainerArgs) (numSteps : Nat)
    (h : args.epochs = 0) : train args numSteps = some [] := by
  simp [train, h]

/-- Witness for C10 at `epochs = 0`, one dataloader batch. -/
theorem train_epochs_zero_returns_immediately_witness :
    train { epochs := 0 } 1 = some [] :=
  train_epochs_zero_returns_immediately { epochs := 0 } 1 rfl

/-- C8: for every batch and every `max_length ≤ 0` (including the
`eval_max_length = -1` setting), `generate` executes zero loop iterations
and returns the batch unchanged: no forward pass, no broadcast, no token
appended. -/
theorem generate_nonpos_max_length_returns_batch_unchanged
    (oracle : List (List Int) → List Int) (rows : List (List Int))
    (max_length : Int) (stop : List Int) (h : max_length ≤ 0) :
    generate oracle rows max_length stop = (rows, 0, false) := by
  unfold generate
  rw [Int.toNat_of_nonpos h]
  rfl

/-- Witness for C8 at `max_length = -1` (the documented sentinel). -/
theorem generate_nonpos_max_length_returns_batch_unchanged_witness :
    generate (fun _ => [7]) [[1, 0]] (-1) [2] = ([[1, 0]], 0, false) :=
  generate_nonpos_max_length_returns_batch_unchanged
    (fun _ => [7]) [[1, 0]] (-1) [2] (by decide)

/-- C5 counterexample: the claim says a stack trace is printed if and only
if `RANK = "0"`, but with `RANK = "7"` and `WORLD_SIZE = 8` the handler's
condition is satisfied (the second disjunct, `RANK == str(WORLD_SIZE-1)`)
even though the rank is not `"0"`. -/
theorem printsStackTrace_not_only_rank_zero :
    printsStackTrace "7" 8 = true ∧ "7" ≠ "0" := by
  constructor
  · rfl
  · decide

/-- C5 amended: the catch-all prints a stack trace if and only if `RANK`
is `"0"` or `RANK` equals the decimal string of `WORLD_SIZE - 1` (the last
rank); on all other ranks no stack trace is printed. -/
theorem printsStackTrace_iff_first_or_last_rank (rank : String) (worldSize : Int) :
    printsStackTrace rank worldSize = true ↔
      (rank = "0" ∨ rank = toString (worldSize - 1)) := by
  simp [printsStackTrace]

/-- C7: the `next_tokens` broadcast uses source rank
`gpc.get_world_size(ParallelMode.PIPELINE) - 1`, the last pipeline stage,
so after the broadcast every rank `r` of the group holds the tokens that
the last stage computed by argmax on its output. -/
theorem broadcast_from_last_stage_gives_every_rank_argmax
    (ppWorldSize batchSize : Nat) (argmaxTokens : List Int) (r : Nat)
    (_hr : r < ppWorldSize) :
    broadcastTokens (preBroadcastTokens ppWorldSize batchSize argmaxTokens)
      (broadcastSrc ppWorldSize) r = argmaxTokens := by
  simp [broadcastTokens, broadcastSrc, preBroadcastTokens]

/-- Witness for C7: two pipeline stages, batch size one, rank 0 receives
the last stage's token. -/
theorem broadcast_from_last_stage_gives_every_rank_argmax_witness :
    broadcastTokens (preBroadcastTokens 2 1 [5]) (broadcastSrc 2) 0 = [5] :=
  broadcast_from_last_stage_gives_every_rank_argmax 2 1 [5] 0 (by decide)

/-- Membership of an eval event in the step-cadence check: `stepEval`
emits exactly `eval(epoch, step)` under the documented condition. -/
lemma mem_stepEval_iff (N : Int) (e e' s s' : Nat) :
    Event.evalCall e s ∈ stepEval N e' s' ↔
      (e = e' ∧ s = s' ∧ (N = -1 ∨ (0 < N ∧ (s' : Int) % N = 0))) := by
  unfold stepEval
  split_ifs with h0 h1 h2
  · subst h0; simp
  · subst h1; simp [Event.evalCall.injEq]
  · simp [Event.evalCall.injEq, h2.1, h2.2]
  · simp only [List.not_mem_nil, false_iff]
    rintro ⟨-, -, hc | hc⟩
    · exact h1 hc
    · exact h2 hc

/-- Membership of an eval event in the epoch-cadence check. -/
lemma mem_epochEval_iff (M : Int) (e e' s c : Nat) :
    Event.evalCall e s ∈ epochEval M e' c ↔
      (e = e' ∧ s = 0 ∧ (M = -1 ∨ (0 < M ∧ (c : Int) % M = 0))) := by
  unfold epochEval
  split_ifs with h0 h1 h2
  · subst h0; simp
  · subst h1; simp [Event.evalCall.injEq]
  · simp [Event.evalCall.injEq, h2.1, h2.2]
  · simp only [List.not_mem_nil, false_iff]
    rintro ⟨-, -, hc | hc⟩
    · exact h1 hc
    · exact h2 hc

/-- `train_loop` never emits an eval event with step argument 0: its steps
are numbered from 1. -/
lemma evalCall_zero_not_mem_train_loop (args : TrainerArgs) (e e' n : Nat) :
    Event.evalCall e 0 ∉ train_loop args e' n := by
  unfold train_loop
  simp only [List.mem_flatMap, List.mem_range, List.mem_cons]
  rintro ⟨i, -, h | h⟩
  · simp at h
  · rcases (mem_stepEval_iff _ _ _ _ _).1 h with ⟨-, hs, -⟩
    omega

/-- C1: inside `train_loop`, after training step `s` (steps numbered from
1), `eval(epoch, s)` is invoked if and only if `eval_per_steps = -1`, or
`eval_per_steps > 0` and `s mod eval_per_steps = 0`; in particular with
`eval_per_steps = 0` no step-cadence eval ever occurs. -/
theorem train_loop_eval_after_step_iff (args : TrainerArgs)
    (epoch numSteps s : Nat) (h1 : 1 ≤ s) (h2 : s ≤ numSteps) :
    Event.evalCall epoch s ∈ train_loop args epoch numSteps ↔
      (args.eval_per_steps = -1 ∨
        (0 < args.eval_per_steps ∧ (s : Int) % args.eval_per_steps = 0)) := by
  unfold train_loop
  simp only [List.mem_flatMap, List.mem_range, List.mem_cons]
  constructor
  · rintro ⟨i, -, h | h⟩
    · simp at h
    · rcases (mem_stepEval_iff _ _ _ _ _).1 h with ⟨-, hs, hc⟩
      rwa [show i + 1 = s by omega] at hc
  · intro hc
    refine ⟨s - 1, by omega, Or.inr ?_⟩
    rw [mem_stepEval_iff, show s - 1 + 1 = s by omega]
    exact ⟨rfl, rfl, hc⟩

/-- Witness for C1: with `eval_per_steps = 2` and two batches, eval runs
after step 2. -/
theorem train_loop_eval_after_step_iff_witness :
    Event.evalCall 0 2 ∈ train_loop { eval_per_steps := 2 } 0 2 :=
  (train_loop_eval_after_step_iff { eval_per_steps := 2 } 0 2 2
    (by decide) (by decide)).2 (Or.inr (by decide))

/-- C2: in both branches of `train`, eval runs after the `k`-th completed
epoch (`k` from 1) if and only if `eval_per_epoches = -1`, or
`eval_per_epoches > 0` and `k mod eval_per_epoches = 0`; with
`eval_per_epoches = 0` no epoch-cadence eval ever occurs.  In the
`epochs > 0` branch the event is `eval(k - 1, 0)` (0-based loop variable);
in the `epochs = -1` branch the `k`-th pass of the `while True` body emits
`eval(k, 0)` (incremented counter). -/
theorem train_eval_after_epoch_iff (args : TrainerArgs) (numSteps k : Nat)
    (h1 : 1 ≤ k) :
    ((k ≤ args.epochs.toNat →
       (Event.evalCall (k - 1) 0 ∈ trainFinite args numSteps ↔
         (args.eval_per_epoches = -1 ∨
           (0 < args.eval_per_epoches ∧ (k : Int) % args.eval_per_epoches = 0))))
     ∧ (Event.evalCall k 0 ∈ foreverBody args numSteps (k - 1) ↔
         (args.eval_per_epoches = -1 ∨
           (0 < args.eval_per_epoches ∧ (k : Int) % args.eval_per_epoches = 0)))) := by
  constructor
  · intro hk
    unfold trainFinite
    simp only [List.mem_flatMap, List.mem_range, List.mem_append]
    constructor
    · rintro ⟨e, -, h | h⟩
      · exact absurd h (evalCall_zero_not_mem_train_loop args _ e numSteps)
      · rcases (mem_epochEval_iff _ _ _ _ _).1 h with ⟨he, -, hc⟩
        rwa [show e + 1 = k by omega] at hc
    · intro hc
      refine ⟨k - 1, by omega, Or.inr ?_⟩
      rw [mem_epochEval_iff, show k - 1 + 1 = k by omega]
      exact ⟨rfl, rfl, hc⟩
  · unfold foreverBody
    rw [show k - 1 + 1 = k by omega]
    simp only [List.mem_append]
    constructor
    · rintro (h | h)
      · exact absurd h (evalCall_zero_not_mem_train_loop args _ _ numSteps)
      · exact ((mem_epochEval_iff _ _ _ _ _).1 h).2.2
    · intro hc
      exact Or.inr ((mem_epochEval_iff _ _ _ _ _).2 ⟨rfl, rfl, hc⟩)

/-- Witness for C2: with `epochs = 2` and `eval_per_epoches = 1`, eval
runs after the first epoch in the finite branch (as `eval(0, 0)`) and
after the first pass of the infinite branch (as `eval(1, 0)`). -/
theorem train_eval_after_epoch_iff_witness :
    Event.evalCall 0 0 ∈ trainFinite { epochs := 2, eval_per_epoches := 1 } 1 ∧
      Event.evalCall 1 0 ∈ foreverBody { epochs := 2, eval_per_epoches := 1 } 1 0 :=
  have h := train_eval_after_epoch_iff { epochs := 2, eval_per_epoches := 1 } 1 1
    (by decide)
  ⟨(h.1 (by decide)).2 (Or.inr (by decide)), h.2.2 (Or.inr (by decide))⟩

/-- Padding makes the row exactly long enough to have a column `pos`. -/
lemma padRow_length (row : List Int) (pos : Nat) :
    (padRow row pos).length = max row.length (pos + 1) := by
  simp only [padRow, List.length_append, List.length_replicate]
  omega

/-- Padding with zeros does not change any entry as read by `getD · 0`:
positions inside the old row keep their value, appended positions and
out-of-range positions read 0 either way. -/
lemma padRow_getD (row : List Int) (pos j : Nat) :
    (padRow row pos).getD j 0 = row.getD j 0 := by
  simp only [padRow, List.getD_eq_getElem?_getD, List.getElem?_append]
  split_ifs with h
  · rfl
  · rw [List.getElem?_replicate, List.getElem?_eq_none (by omega)]
    split_ifs <;> rfl

lemma writeRow_length (row : List Int) (pos : Nat) (t : Int) :
    (writeRow row pos t).length = row.length :=
  List.length_set row pos _

/-- The conditional write touches no column other than `pos`. -/
lemma writeRow_getD_ne (row : List Int) (pos : Nat) (t : Int) (j : Nat)
    (h : j ≠ pos) :
    (writeRow row pos t).getD j 0 = row.getD j 0 := by
  simp only [writeRow, List.getD_eq_getElem?_getD,
    List.getElem?_set_ne (fun hc => h hc.symm)]

/-- At column `pos` the write keeps a nonzero value and replaces a zero by
the predicted token. -/
lemma writeRow_getD_self (row : List Int) (pos : Nat) (t : Int)
    (h : pos < row.length) :
    (writeRow row pos t).getD pos 0 =
      if row.getD pos 0 = 0 then t else row.getD pos 0 := by
  simp only [writeRow, List.getD_eq_getElem?_getD, List.getElem?_set_self h,
    Option.getD_some]

/-- Row `r` of one iteration's result, as pad-then-write on row `r` of the
input with the `r`-th predicted token. -/
lemma genStep_getD (oracle : List (List Int) → List Int)
    (rows : List (List Int)) (i r : Nat)
    (hlen : (oracle rows).length = rows.length) (hr : r < rows.length) :
    (genStep oracle rows i).getD r [] =
      writeRow (padRow (rows.getD r []) (i + 1)) (i + 1)
        ((oracle rows).getD r 0) := by
  have hz : r < (genStep oracle rows i).length := by
    simp only [genStep, List.length_zipWith, hlen]
    omega
  rw [List.getD_eq_getElem _ _ hz]
  unfold genStep
  rw [List.getElem_zipWith, List.getD_eq_getElem _ _ hr,
    List.getD_eq_getElem _ _ (by omega : r < (oracle rows).length)]

/-- C6: one iteration of the `generate` loop at index `i` keeps the batch
size, ensures every row has a column at `current_pos = i + 1` by growing
it to width `max width (i + 2)` with appended zeros, and writes only that
single column: every column `j ≠ i + 1` of every row is unchanged. -/
theorem genStep_writes_single_column (oracle : List (List Int) → List Int)
    (rows : List (List Int)) (i r j : Nat)
    (hlen : (oracle rows).length = rows.length) (hr : r < rows.length)
    (hj : j ≠ i + 1) :
    (genStep oracle rows i).length = rows.length ∧
    ((genStep oracle rows i).getD r []).length =
      max ((rows.getD r []).length) (i + 2) ∧
    ((genStep oracle rows i).getD r []).getD j 0 =
      (rows.getD r []).getD j 0 := by
  refine ⟨?_, ?_, ?_⟩
  · simp only [genStep, List.length_zipWith, hlen]
    omega
  · rw [genStep_getD oracle rows i r hlen hr, writeRow_length, padRow_length]
  · rw [genStep_getD oracle rows i r hlen hr, writeRow_getD_ne _ _ _ _ hj,
      padRow_getD]

/-- Witness for C6: one row `[1, 0]`, iteration 0 writing column 1; the
batch keeps one row, the row keeps width 2, and column 0 keeps the prompt
token 1. -/
theorem genStep_writes_single_column_witness :
    (genStep (fun _ => [5]) [[1, 0]] 0).length = 1 ∧
    ((genStep (fun _ => [5]) [[1, 0]] 0).getD 0 []).length = 2 ∧
    ((genStep (fun _ => [5]) [[1, 0]] 0).getD 0 []).getD 0 0 = 1 :=
  genStep_writes_single_column (fun _ => [5]) [[1, 0]] 0 0 0
    (by decide) (by decide) (by decide)

/-- C9: at the written column `current_pos = i + 1`, a nonzero existing
entry is left unchanged and a zero (padding) entry is replaced by the
predicted token — prompt tokens already present are never overwritten. -/
theorem genStep_preserves_nonzero_at_current_pos
    (oracle : List (List Int) → List Int) (rows : List (List Int)) (i r : Nat)
    (hlen : (oracle rows).length = rows.length) (hr : r < rows.length) :
    ((genStep oracle rows i).getD r []).getD (i + 1) 0 =
      if ((rows.getD r []).getD (i + 1) 0) = 0 then (oracle rows).getD r 0
      else (rows.getD r []).getD (i + 1) 0 := by
  rw [genStep_getD oracle rows i r hlen hr,
    writeRow_getD_self _ _ _ (by rw [padRow_length]; omega), padRow_getD]

/-- Witness for C9: the nonzero prompt token 7 at column 1 survives
iteration 0 even though the oracle predicts 5. -/
theorem genStep_preserves_nonzero_at_current_pos_witness :
    ((genStep (fun _ => [5]) [[1, 7]] 0).getD 0 []).getD 1 0 =
      if (([[1, 7]].getD 0 []).getD 1 0) = 0 then 5 else ([[1, 7]].getD 0 []).getD 1 0 :=
  genStep_preserves_nonzero_at_current_pos (fun _ => [5]) [[1, 7]] 0 0
    (by decide) (by decide)

/-- Running the `generate` loop from the state reached after `d`
iterations: the final state is `iterState` at the iteration count reached,
the count lies between `d` and `d + fuel`, and the loop exits through the
break exactly when some executed iteration produced a stop token. -/
lemma genLoopAux_run (oracle : List (List Int) → List Int) (stop : List Int)
    (rows : List (List Int)) (fuel : Nat) :
    ∀ d,
      (genLoopAux oracle stop fuel d (iterState oracle rows d)).1 =
        iterState oracle rows
          (genLoopAux oracle stop fuel d (iterState oracle rows d)).2.1 ∧
      d ≤ (genLoopAux oracle stop fuel d (iterState oracle rows d)).2.1 ∧
      (genLoopAux oracle stop fuel d (iterState oracle rows d)).2.1 ≤ d + fuel ∧
      ((genLoopAux oracle stop fuel d (iterState oracle rows d)).2.2 = true ↔
        ∃ k, d ≤ k ∧
          k < (genLoopAux oracle stop fuel d (iterState oracle rows d)).2.1 ∧
          stopHitAt oracle stop rows k = true) := by
  induction fuel with
  | zero =>
    intro d
    refine ⟨rfl, Nat.le_refl d, Nat.le_refl d, ?_⟩
    simp only [genLoopAux]
    constructor
    · intro h
      exact absurd h (by simp)
    · rintro ⟨k, hdk, hk, -⟩
      omega
  | succ n ih =>
    intro d
    by_cases hstop : stopHit oracle stop (iterState oracle rows d) = true
    · simp only [genLoopAux, hstop, if_true]
      refine ⟨rfl, by omega, by omega, ?_⟩
      constructor
      · intro _
        exact ⟨d, Nat.le_refl d, by omega, hstop⟩
      · intro _
        trivial
    · have hrec :
          genLoopAux oracle stop (n + 1) d (iterState oracle rows d) =
            genLoopAux oracle stop n (d + 1) (iterState oracle rows (d + 1)) := by
        simp [genLoopAux, hstop, iterState]
      rw [hrec]
      obtain ⟨h1, h2, h3, h4⟩ := ih (d + 1)
      refine ⟨h1, by omega, by omega, ?_⟩
      rw [h4]
      constructor
      · rintro ⟨k, hdk, hk, hhit⟩
        exact ⟨k, by omega, hk, hhit⟩
      · rintro ⟨k, hdk, hk, hhit⟩
        refine ⟨k, ?_, hk, hhit⟩
        rcases Nat.eq_or_lt_of_le hdk with h | h
        · exact absurd (h ▸ hhit) (by simpa [stopHitAt] using hstop)
        · omega

/-- C3: for every oracle, batch, `max_length` and stop-token list, the
`generate` loop executes at most `max_length` iterations
(`max_length.toNat`, i.e. `max max_length 0`): it never iterates past the
fixed bound of `range(max_length)`.  `generate` is a total function, so it
terminates and returns the batch. -/
theorem generate_at_most_max_length_iterations
    (oracle : List (List Int) → List Int) (rows : List (List Int))
    (max_length : Int) (stop : List Int) :
    (generate oracle rows max_length stop).2.1 ≤ max_length.toNat := by
  have h := (genLoopAux_run oracle stop rows max_length.toNat 0).2.2.1
  simpa [generate, iterState] using h

/-- C4: the `generate` loop exits early through the `StopIteration` break
if and only if some executed iteration produced a `next_tokens` column
containing a stop token; the break happens at the end of that iteration,
after the token write, so the returned `input_ids` is exactly the state
after all executed iterations, the breaking one included. -/
theorem generate_break_iff_stop_token
    (oracle : List (List Int) → List Int) (rows : List (List Int))
    (max_length : Int) (stop : List Int) (_h : 0 < max_length) :
    ((generate oracle rows max_length stop).2.2 = true ↔
      ∃ k, k < (generate oracle rows max_length stop).2.1 ∧
        stopHitAt oracle stop rows k = true) ∧
    (generate oracle rows max_length stop).1 =
      iterState oracle rows (generate oracle rows max_length stop).2.1 := by
  have h := genLoopAux_run oracle stop rows max_length.toNat 0
  simp only [iterState] at h
  refine ⟨?_, ?_⟩
  · rw [generate, h.2.2.2]
    constructor
    · rintro ⟨k, -, hk, hhit⟩
      exact ⟨k, hk, hhit⟩
    · rintro ⟨k, hk, hhit⟩
      exact ⟨k, Nat.zero_le k, hk, hhit⟩
  · exact h.1

/-- Witness for C4: with the oracle constantly predicting the stop token
2, `generate` on `[[1]]` with `max_length = 3` breaks after the first
iteration, having written the token into column 1. -/
theorem generate_break_iff_stop_token_witness :
    (0 : Int) < 3 ∧
    (((generate (fun _ => [2]) [[1]] 3 [2]).2.2 = true ↔
      ∃ k, k < (generate (fun _ => [2]) [[1]] 3 [2]).2.1 ∧
        stopHitAt (fun _ => [2]) [2] [[1]] k = true) ∧
    (generate (fun _ => [2]) [[1]] 3 [2]).1 =
      iterState (fun _ => [2]) [[1]]
        (generate (fun _ => [2]) [[1]] 3 [2]).2.1) :=
  ⟨by decide, generate_break_iff_stop_token (fun _ => [2]) [[1]] 3 [2] (by decide)⟩

end TuneLite
